import Mathlib

/-!
Verification development for the Taboo game server's room state machine
(`server/gameRoom.js`, with constants from `server/config.js`).

JavaScript string-keyed objects are modelled as association lists preserving
insertion order; `Set` values as duplicate-free lists; machine numbers as
`Nat`/`Int` (all arithmetic here is small and exact); fallible methods return
a pair of the updated room and an `Except`-style result.
-/

namespace Taboo

/-- Association-list lookup, mirroring JavaScript `obj[key]` on a string-keyed
object (returns `none` where JavaScript yields `undefined`). -/
def alGet {α : Type} : List (String × α) → String → Option α
  | [], _ => none
  | (k, v) :: t, key => if k = key then some v else alGet t key

/-- JavaScript assignment `obj[key] = v`: replaces the entry in place if the
key exists, otherwise appends (objects keep insertion order). -/
def alSet {α : Type} : List (String × α) → String → α → List (String × α)
  | [], key, v => [(key, v)]
  | (k, w) :: t, key, v => if k = key then (k, v) :: t else (k, w) :: alSet t key v

/-- In-place mutation of the object held under a key (JavaScript mutates the
shared reference; an absent key leaves the map unchanged). -/
def alUpdate {α : Type} : List (String × α) → String → (α → α) → List (String × α)
  | [], _, _ => []
  | (k, v) :: t, key, f => if k = key then (k, f v) :: t else (k, v) :: alUpdate t key f

/-- JavaScript `delete obj[key]` (keys are unique in every map we build). -/
def alErase {α : Type} : List (String × α) → String → List (String × α)
  | [], _ => []
  | (k, v) :: t, key => if k = key then t else (k, v) :: alErase t key

/-- JavaScript `Set.prototype.add`: insert if absent, keeping insertion order. -/
def setAdd (s : List String) (x : String) : List String :=
  if x ∈ s then s else s ++ [x]

/-- JavaScript strict equality applied to two possibly-nullish team names
(`null === undefined` is `false`, so two nullish operands never compare equal). -/
def jsStrEq : Option String → Option String → Bool
  | some a, some b => a == b
  | _, _ => false

inductive PStatus
  | active
  | spectating
  deriving DecidableEq, Repr

/-- Classic-mode lifecycle states of `GameRoom.state` (the practice-mode
states of the practice variant are out of scope of the claims). -/
inductive GameState
  | lobby
  | playing
  | game_over
  deriving DecidableEq, Repr

inductive TurnPhase
  | waiting_for_describer
  | turn_active
  | turn_ended
  deriving DecidableEq, Repr

inductive CardResult
  | correct
  | buzz
  | skip
  deriving DecidableEq, Repr

/-- Error codes returned by `GameRoom` methods. `INTERNAL_CRASH` models the
`TypeError` JavaScript would throw when dereferencing a missing active team;
no such state is constructible through the room's operations. -/
inductive GameError
  | NOT_PLAYING
  | WRONG_PHASE
  | WRONG_CARD
  | PLAYER_NOT_FOUND
  | NOT_YOUR_TURN
  | CANNOT_BUZZ_OWN_TEAM
  | DECK_EMPTY
  | NOT_HOST
  | GAME_ALREADY_STARTED
  | NEED_MORE_PLAYERS
  | INVALID_TEAM
  | TEAM_FULL
  | INTERNAL_CRASH
  deriving DecidableEq, Repr

structure Card where
  id : String
  word : String
  tabooWords : List String
  category : String
  difficulty : String
  deriving DecidableEq, Repr

structure Player where
  id : String
  name : String
  teamName : Option String
  socketId : String
  isHost : Bool
  status : PStatus
  joinOrder : Nat
  deriving DecidableEq, Repr

structure Team where
  name : String
  score : Int
  memberIds : List String
  describerIndex : Nat
  deriving DecidableEq, Repr

structure PlayerStats where
  described : Nat
  guessed : Nat
  deriving DecidableEq, Repr

inductive WinMode
  | score_limit
  | deck_mode
  deriving DecidableEq, Repr

-- Constants from `server/config.js`.

def TEAM_NAMES : List String := ["Equipo A", "Equipo B"]

def MIN_PLAYERS_PER_TEAM : Nat := 2

def MAX_PLAYERS_PER_TEAM : Nat := 6

def TURN_DURATION_SECONDS : Int := 60

def DEFAULT_SCORE_LIMIT : Int := 15

/-- The mutable state of a classic-mode `GameRoom`. `turnTimer` abstracts the
countdown handle as a liveness flag; `lastActivityAt` receives the caller's
clock (`Date.now()`) as an explicit `now` argument. -/
structure Room where
  code : String
  state : GameState
  turnPhase : Option TurnPhase
  players : List (String × Player)
  nextJoinOrder : Nat
  teams : List (String × Team)
  teamOrder : List String
  activeTeamIndex : Nat
  deck : List Card
  currentCard : Option Card
  usedCardIds : List String
  turnTimer : Bool
  secondsRemaining : Int
  turnNumber : Nat
  playerStats : List (String × PlayerStats)
  scoreLimit : Int
  winMode : WinMode
  lastActivityAt : Nat
  hostPlayerId : String
  deriving DecidableEq, Repr

def clearTimer (r : Room) : Room := { r with turnTimer := false }

def getActiveTeam (r : Room) : Option Team :=
  match r.teamOrder.get? r.activeTeamIndex with
  | none => none
  | some tn => alGet r.teams tn

def getCurrentDescriberId (r : Room) : Option String :=
  match getActiveTeam r with
  | none => none
  | some team =>
    if team.memberIds.length = 0 then none
    else team.memberIds.get? (team.describerIndex % team.memberIds.length)

def getDescriberName (r : Room) (teamName : String) : String :=
  match alGet r.teams teamName with
  | none => "—"
  | some team =>
    if team.memberIds.length = 0 then "—"
    else
      match team.memberIds.get? (team.describerIndex % team.memberIds.length) with
      | none => "—"
      | some pid =>
        match alGet r.players pid with
        | some p => p.name
        | none => "—"

def drawNextCard (r : Room) : Option Card :=
  (r.deck.filter (fun c => !(decide (c.id ∈ r.usedCardIds)))).head?

/-- `_checkWinCondition(forceCheck)`; the `forceCheck` argument is accepted but
unused, exactly as in the source. -/
def checkWinCondition (r : Room) (_forceCheck : Bool) : Option String :=
  match r.winMode with
  | .score_limit => (r.teams.find? (fun nt => decide (r.scoreLimit ≤ nt.2.score))).map (·.1)
  | .deck_mode => none

def findLeader (r : Room) : Option String :=
  let step := fun (acc : Option String × Option Int × Bool) (nt : String × Team) =>
    match acc.2.1 with
    | none => (some nt.1, some nt.2.score, false)
    | some top =>
      if nt.2.score > top then (some nt.1, some nt.2.score, false)
      else if nt.2.score = top then (acc.1, acc.2.1, true)
      else acc
  let fin := r.teams.foldl step (none, none, false)
  if fin.2.2 then some "tie" else fin.1

def buildScores (r : Room) : List (String × Int) :=
  r.teams.map (fun nt => (nt.1, nt.2.score))

structure TurnInfo where
  activeTeam : Option String
  describerName : String
  describerPlayerId : Option String
  turnNumber : Nat
  deriving DecidableEq, Repr

def buildTurnInfo (r : Room) : TurnInfo :=
  let describerId := getCurrentDescriberId r
  let dname :=
    match describerId with
    | none => "—"
    | some did =>
      match alGet r.players did with
      | some p => p.name
      | none => "—"
  { activeTeam := r.teamOrder.get? r.activeTeamIndex
    describerName := dname
    describerPlayerId := describerId
    turnNumber := r.turnNumber }

/-- One iteration of the `activateSpectators` loop body. -/
def activateSpectatorsStep (acc : Room × List String) (pp : String × Player) : Room × List String :=
  if pp.2.status = .spectating then
    let r1 := { acc.1 with players := alUpdate acc.1.players pp.1 (fun p => { p with status := .active }) }
    let r2 :=
      match pp.2.teamName with
      | some tn =>
        match alGet r1.teams tn with
        | some team =>
          if pp.1 ∈ team.memberIds then r1
          else { r1 with teams := alUpdate r1.teams tn (fun t => { t with memberIds := t.memberIds ++ [pp.1] }) }
        | none => r1
      | none => r1
    (r2, acc.2 ++ [pp.2.name])
  else acc

def activateSpectators (r : Room) : Room × List String :=
  r.players.foldl activateSpectatorsStep (r, [])

inductive AddResult
  | err (e : GameError)
  | ok (isSpectator : Bool)
  deriving DecidableEq, Repr

def addPlayer (r : Room) (socketId playerId name teamName : String) (isHost : Bool) (now : Nat) :
    Room × AddResult :=
  if teamName ∈ TEAM_NAMES then
    match alGet r.teams teamName with
    | none => (r, .err .INVALID_TEAM)
    | some team =>
      if MAX_PLAYERS_PER_TEAM ≤ team.memberIds.length then (r, .err .TEAM_FULL)
      else
        let isSpectator := r.state == .playing
        let player : Player :=
          { id := playerId
            name := name
            teamName := some teamName
            socketId := socketId
            isHost := isHost
            status := if isSpectator then .spectating else .active
            joinOrder := r.nextJoinOrder }
        let r1 := { r with
          players := alSet r.players playerId player
          nextJoinOrder := r.nextJoinOrder + 1
          playerStats := alSet r.playerStats playerId { described := 0, guessed := 0 } }
        let r2 :=
          if playerId ∈ team.memberIds then r1
          else if isSpectator then r1
          else { r1 with teams := alUpdate r1.teams teamName (fun t => { t with memberIds := t.memberIds ++ [playerId] }) }
        ({ r2 with lastActivityAt := now }, .ok isSpectator)
  else (r, .err .INVALID_TEAM)

/-- The classic-mode `GameRoom` constructor: fixed teams, then the host joins
`TEAM_NAMES[0]`. -/
def mkClassicRoom (code hostSocketId hostPlayerId hostPlayerName : String) (now : Nat) : Room :=
  let base : Room :=
    { code := code
      state := .lobby
      turnPhase := none
      players := []
      nextJoinOrder := 0
      teams := TEAM_NAMES.map (fun n => (n, { name := n, score := 0, memberIds := [], describerIndex := 0 }))
      teamOrder := []
      activeTeamIndex := 0
      deck := []
      currentCard := none
      usedCardIds := []
      turnTimer := false
      secondsRemaining := 0
      turnNumber := 0
      playerStats := []
      scoreLimit := DEFAULT_SCORE_LIMIT
      winMode := .score_limit
      lastActivityAt := now
      hostPlayerId := hostPlayerId }
  (addPlayer base hostSocketId hostPlayerId hostPlayerName (TEAM_NAMES.headD "") true now).1

def removePlayer (r : Room) (playerId : String) (now : Nat) : Room :=
  match alGet r.players playerId with
  | none => r
  | some player =>
    let r1 :=
      match player.teamName with
      | some tn =>
        match alGet r.teams tn with
        | some _ =>
          { r with teams := alUpdate r.teams tn (fun t => { t with memberIds := t.memberIds.filter (fun i => i != playerId) }) }
        | none => r
      | none => r
    { r1 with players := alErase r1.players playerId, lastActivityAt := now }

def reconnectPlayer (r : Room) (playerId newSocketId : String) (now : Nat) : Room × Bool :=
  match alGet r.players playerId with
  | some _ =>
    ({ r with
        players := alUpdate r.players playerId (fun p => { p with socketId := newSocketId })
        lastActivityAt := now }, true)
  | none => (r, false)

def canStart (r : Room) (requestingPlayerId : String) : Option GameError :=
  if requestingPlayerId ≠ r.hostPlayerId then some .NOT_HOST
  else if r.state ≠ .lobby then some .GAME_ALREADY_STARTED
  else if r.teams.any (fun nt => decide (nt.2.memberIds.length < MIN_PLAYERS_PER_TEAM)) then
    some .NEED_MORE_PLAYERS
  else none

def insertAsc (x : String) : List String → List String
  | [] => [x]
  | y :: t => if compare x y = .lt then x :: y :: t else y :: insertAsc x t

/-- `Array.prototype.sort()` on distinct short strings: ascending lexicographic
order. -/
def sortStrings : List String → List String
  | [] => []
  | x :: t => insertAsc x (sortStrings t)

def startGame (r : Room) (deck : List Card) (now : Nat) : Room × TurnInfo :=
  let r1 := { r with
    deck := deck
    usedCardIds := []
    state := .playing
    turnPhase := some .waiting_for_describer
    activeTeamIndex := 0
    turnNumber := 0
    teamOrder := sortStrings (r.teams.map (·.1))
    teams := r.teams.map (fun nt => (nt.1, { nt.2 with score := 0, describerIndex := 0 }))
    playerStats := r.playerStats.map (fun ns => (ns.1, { described := 0, guessed := 0 }))
    lastActivityAt := now }
  (r1, buildTurnInfo r1)

structure ReadyOk where
  card : Card
  turnInfo : TurnInfo
  deriving DecidableEq, Repr

def setDescriberReady (r : Room) (requestingPlayerId : String) (now : Nat) :
    Room × Except GameError ReadyOk :=
  if r.state ≠ .playing then (r, .error .NOT_PLAYING)
  else if r.turnPhase ≠ some .waiting_for_describer then (r, .error .NOT_YOUR_TURN)
  else if some requestingPlayerId ≠ getCurrentDescriberId r then (r, .error .NOT_YOUR_TURN)
  else
    match drawNextCard r with
    | none => (r, .error .DECK_EMPTY)
    | some card =>
      let r1 := { r with
        currentCard := some card
        turnPhase := some .turn_active
        secondsRemaining := TURN_DURATION_SECONDS
        lastActivityAt := now }
      (r1, .ok { card := card, turnInfo := buildTurnInfo r1 })

def tickTimer (r : Room) : Room × (Int × Bool) :=
  let r1 := { r with secondsRemaining := r.secondsRemaining - 1 }
  if r1.secondsRemaining ≤ 0 then ({ r1 with turnPhase := some .turn_ended }, (0, true))
  else (r1, (r1.secondsRemaining, false))

structure ScoreOk where
  result : CardResult
  scores : List (String × Int)
  nextCard : Option Card
  isGameOver : Bool
  winner : Option String
  deriving DecidableEq, Repr

/-- Tail of `scoreCard` after the score change (lines 353-401 of the source):
mark the card used, clear the card in play, evaluate the win condition, and
either finish the game or draw the next card. -/
def resolveCard (r1 : Room) (cardId : String) (result : CardResult) (now : Nat) :
    Room × Except GameError ScoreOk :=
  let r2 := { r1 with usedCardIds := setAdd r1.usedCardIds cardId, currentCard := none }
  match checkWinCondition r2 false with
  | some winner =>
    let r3 := clearTimer { r2 with state := .game_over, turnPhase := none }
    (r3, .ok { result := result, scores := buildScores r3, nextCard := none, isGameOver := true, winner := some winner })
  | none =>
    match drawNextCard r2 with
    | none =>
      let deckWinner := checkWinCondition r2 true
      let r3 := clearTimer { r2 with state := .game_over, turnPhase := none }
      let w :=
        match deckWinner with
        | some dw => some dw
        | none => findLeader r3
      (r3, .ok { result := result, scores := buildScores r3, nextCard := none, isGameOver := true, winner := w })
    | some nextCard =>
      let r3 := { r2 with currentCard := some nextCard, lastActivityAt := now }
      (r3, .ok { result := result, scores := buildScores r3, nextCard := some nextCard, isGameOver := false, winner := none })

def scoreCard (r : Room) (requestingPlayerId cardId : String) (result : CardResult) (now : Nat) :
    Room × Except GameError ScoreOk :=
  if r.state ≠ .playing then (r, .error .NOT_PLAYING)
  else if r.turnPhase ≠ some .turn_active then (r, .error .WRONG_PHASE)
  else if r.currentCard.map (·.id) ≠ some cardId then (r, .error .WRONG_CARD)
  else
    let activeTeamName := r.teamOrder.get? r.activeTeamIndex
    match alGet r.players requestingPlayerId with
    | none => (r, .error .PLAYER_NOT_FOUND)
    | some player =>
      let isOnActiveTeam := jsStrEq player.teamName activeTeamName
      let isDescriber := some requestingPlayerId = getCurrentDescriberId r
      if result = .correct ∧ isOnActiveTeam = false then (r, .error .NOT_YOUR_TURN)
      else if result = .buzz ∧ isOnActiveTeam = true then (r, .error .CANNOT_BUZZ_OWN_TEAM)
      else if result = .skip ∧ ¬ isDescriber then (r, .error .NOT_YOUR_TURN)
      else
        let scored :=
          match result with
          | .skip => some r
          | .correct =>
            match activeTeamName, activeTeamName.bind (alGet r.teams) with
            | some tn, some team =>
              let describerId := getCurrentDescriberId r
              let teams1 := alUpdate r.teams tn (fun t => { t with score := t.score + 1 })
              let stats1 :=
                match describerId with
                | some did => alUpdate r.playerStats did (fun s => { s with described := s.described + 1 })
                | none => r.playerStats
              let guessers := team.memberIds.filter (fun i => some i != describerId)
              let stats2 := guessers.foldl (fun st i => alUpdate st i (fun s => { s with guessed := s.guessed + 1 })) stats1
              some { r with teams := teams1, playerStats := stats2 }
            | _, _ => none
          | .buzz =>
            match activeTeamName, activeTeamName.bind (alGet r.teams) with
            | some tn, some _ => some { r with teams := alUpdate r.teams tn (fun t => { t with score := t.score - 1 }) }
            | _, _ => none
        match scored with
        | none => (r, .error .INTERNAL_CRASH)
        | some r1 => resolveCard r1 cardId result now

structure EndTurnOut where
  scores : List (String × Int)
  nextTeam : Option String
  nextDescriberName : String
  activatedSpectators : List String
  deriving DecidableEq, Repr

def endTurn (r : Room) (now : Nat) : Room × EndTurnOut :=
  let r1 := { r with turnPhase := some .turn_ended }
  let r2 :=
    match r1.currentCard with
    | some c => { r1 with usedCardIds := setAdd r1.usedCardIds c.id }
    | none => r1
  let r3 := clearTimer { r2 with currentCard := none }
  let r4 :=
    match r3.teamOrder.get? r3.activeTeamIndex with
    | some tn =>
      { r3 with teams := alUpdate r3.teams tn (fun t =>
          if 0 < t.memberIds.length then { t with describerIndex := (t.describerIndex + 1) % t.memberIds.length }
          else t) }
    | none => r3
  let r5 := { r4 with activeTeamIndex := (r4.activeTeamIndex + 1) % r4.teamOrder.length, turnNumber := r4.turnNumber + 1 }
  let act := activateSpectators r5
  let r6 := act.1
  let nextTeam := r6.teamOrder.get? r6.activeTeamIndex
  let nextDescName :=
    match nextTeam with
    | some tn => getDescriberName r6 tn
    | none => "—"
  let r7 := { r6 with turnPhase := some .waiting_for_describer, lastActivityAt := now }
  (r7, { scores := buildScores r7, nextTeam := nextTeam, nextDescriberName := nextDescName, activatedSpectators := act.2 })

def restart (r : Room) (now : Nat) : Room :=
  let r1 := { r with
    state := .lobby
    turnPhase := none
    deck := []
    usedCardIds := []
    currentCard := none
    turnNumber := 0
    activeTeamIndex := 0 }
  let r2 := (activateSpectators r1).1
  let r3 := { r2 with
    teams := r2.teams.map (fun (nt : String × Team) => (nt.1, { nt.2 with score := 0, describerIndex := 0 }))
    playerStats := r2.playerStats.map (fun (ns : String × PlayerStats) => (ns.1, { described := 0, guessed := 0 })) }
  clearTimer { r3 with lastActivityAt := now }

/-- Room states constructible through the server's socket handlers: the
classic constructor followed by any sequence of guarded operations (the
handlers call `startGame` only after `canStart` passes, `endTurn` only while
a turn is active or just timed out, and `restart` only from game over). -/
inductive Reachable : Room → Prop
  | init (code sock pid pname : String) (now : Nat) :
      Reachable (mkClassicRoom code sock pid pname now)
  | add {r : Room} (sock pid pname tname : String) (now : Nat) :
      Reachable r → Reachable (addPlayer r sock pid pname tname false now).1
  | remove {r : Room} (pid : String) (now : Nat) :
      Reachable r → Reachable (removePlayer r pid now)
  | reconnect {r : Room} (pid sock : String) (now : Nat) :
      Reachable r → Reachable (reconnectPlayer r pid sock now).1
  | start {r : Room} (pid : String) (deck : List Card) (now : Nat) :
      Reachable r → canStart r pid = none → Reachable (startGame r deck now).1
  | ready {r : Room} (pid : String) (now : Nat) :
      Reachable r → Reachable (setDescriberReady r pid now).1
  | score {r : Room} (pid cid : String) (res : CardResult) (now : Nat) :
      Reachable r → Reachable (scoreCard r pid cid res now).1
  | tick {r : Room} :
      Reachable r → Reachable (tickTimer r).1
  | turnEnd {r : Room} (now : Nat) :
      Reachable r → r.state = .playing →
      (r.turnPhase = some .turn_active ∨ r.turnPhase = some .turn_ended) →
      Reachable (endTurn r now).1
  | replay {r : Room} (now : Nat) :
      Reachable r → r.state = .game_over → Reachable (restart r now)

/-- The state of `endTurn` just before spectator activation (a named
subterm of `endTurn`, used to state its unfolding lemma): card marked used
and discarded, timer cleared, describer rotation advanced in team `tn`, and
the active-team index and turn counter advanced. -/
def endTurnPre (r : Room) (tn : String) : Room :=
  { r with
    turnPhase := some TurnPhase.turn_ended
    usedCardIds :=
      match r.currentCard with
      | some c => setAdd r.usedCardIds c.id
      | none => r.usedCardIds
    currentCard := none
    turnTimer := false
    teams := alUpdate r.teams tn (fun t =>
      if 0 < t.memberIds.length then
        { t with describerIndex := (t.describerIndex + 1) % t.memberIds.length }
      else t)
    activeTeamIndex := (r.activeTeamIndex + 1) % r.teamOrder.length
    turnNumber := r.turnNumber + 1 }

-- ── Concrete rooms used by witnesses and counterexamples ────

def mkCard (i : String) : Card :=
  { id := i, word := i, tabooWords := [], category := "general", difficulty := "easy" }

def sampleDeck : List Card := [mkCard "card-1", mkCard "card-2", mkCard "card-3"]

/-- Lobby with two players per team: host "host" and "p2" on Equipo A,
"p3" and "p4" on Equipo B. -/
def lobby22 : Room :=
  (addPlayer (addPlayer (addPlayer (mkClassicRoom "ROOM01" "s0" "host" "Ana" 0)
    "s1" "p2" "Blas" "Equipo A" false 0).1
    "s2" "p3" "Caro" "Equipo B" false 0).1
    "s3" "p4" "Dani" "Equipo B" false 0).1

/-- Lobby with one player on Equipo A (the host) and three on Equipo B. -/
def lobby13 : Room :=
  (addPlayer (addPlayer (addPlayer (mkClassicRoom "ROOM02" "s0" "host" "Ana" 0)
    "s1" "p2" "Blas" "Equipo B" false 0).1
    "s2" "p3" "Caro" "Equipo B" false 0).1
    "s3" "p4" "Dani" "Equipo B" false 0).1

/-- `lobby22` mid-game: the game started with the three-card deck and the
describer ("host", Equipo A) has drawn the first card; turn is active. -/
def midTurn22 : Room := (setDescriberReady (startGame lobby22 sampleDeck 0).1 "host" 0).1

/-- `lobby22` started with a single-card deck and the first card drawn:
scoring the card in play exhausts the deck. -/
def lastCard22 : Room := (setDescriberReady (startGame lobby22 [mkCard "only"] 0).1 "host" 0).1

/-- Lobby with five players on Equipo A and two on Equipo B. -/
def c7lobby : Room :=
  (addPlayer (addPlayer (addPlayer (addPlayer (addPlayer (addPlayer
    (mkClassicRoom "ROOM07" "s0" "host" "Ana" 0)
    "s1" "p2" "B2" "Equipo A" false 0).1
    "s2" "p3" "B3" "Equipo A" false 0).1
    "s3" "p4" "B4" "Equipo A" false 0).1
    "s4" "p5" "B5" "Equipo A" false 0).1
    "s5" "p6" "B6" "Equipo B" false 0).1
    "s6" "p7" "B7" "Equipo B" false 0).1

/-- `c7lobby` after starting, two mid-game joiners ("p8", "p9") choosing
Equipo A (both accepted as spectators, since only the five rotation members
are counted against the cap), and the describer drawing a card. -/
def c7mid : Room :=
  (setDescriberReady
    (addPlayer (addPlayer (startGame c7lobby sampleDeck 0).1
      "s8" "p8" "B8" "Equipo A" false 0).1
      "s9" "p9" "B9" "Equipo A" false 0).1
    "host" 0).1

/-- The turn closes: both spectators are activated into Equipo A's rotation,
which then holds seven member ids. -/
def c7room : Room := (endTurn c7mid 0).1

/-- `midTurn22` after the turn closes (Equipo A's rotation cursor moved to 1)
and both Equipo A members then leave. -/
def c8room : Room :=
  removePlayer (removePlayer (endTurn midTurn22 0).1 "host" 0) "p2" 0

-- ── Association-list lemmas ──────────────────────────────────

theorem alGet_alSet_self {α : Type} (l : List (String × α)) (k : String) (v : α) :
    alGet (alSet l k v) k = some v := by
  induction l with
  | nil => simp [alSet, alGet]
  | cons hd tl ih =>
    obtain ⟨k1, v1⟩ := hd
    by_cases hk : k1 = k
    · simp [alSet, hk, alGet]
    · simp [alSet, hk, alGet, ih]

theorem alGet_alSet_ne {α : Type} (l : List (String × α)) (k k2 : String) (v : α)
    (h : k2 ≠ k) : alGet (alSet l k v) k2 = alGet l k2 := by
  induction l with
  | nil => simp [alSet, alGet, Ne.symm h]
  | cons hd tl ih =>
    obtain ⟨k1, v1⟩ := hd
    by_cases hk : k1 = k
    · subst hk
      simp [alSet, alGet, Ne.symm h]
    · by_cases hk2 : k1 = k2 <;> simp [alSet, hk, alGet, hk2, ih, h]

theorem alGet_alUpdate_self {α : Type} (l : List (String × α)) (k : String) (f : α → α) :
    alGet (alUpdate l k f) k = (alGet l k).map f := by
  induction l with
  | nil => simp [alUpdate, alGet]
  | cons hd tl ih =>
    obtain ⟨k1, v1⟩ := hd
    by_cases hk : k1 = k
    · simp [alUpdate, hk, alGet]
    · simp [alUpdate, hk, alGet, ih]

theorem alGet_alUpdate_ne {α : Type} (l : List (String × α)) (k k2 : String) (f : α → α)
    (h : k2 ≠ k) : alGet (alUpdate l k f) k2 = alGet l k2 := by
  induction l with
  | nil => simp [alUpdate, alGet]
  | cons hd tl ih =>
    obtain ⟨k1, v1⟩ := hd
    by_cases hk : k1 = k
    · subst hk
      simp [alUpdate, alGet, Ne.symm h]
    · by_cases hk2 : k1 = k2 <;> simp [alUpdate, hk, alGet, hk2, ih, h]

theorem alGet_mem {α : Type} (l : List (String × α)) (k : String) (v : α)
    (h : alGet l k = some v) : (k, v) ∈ l := by
  induction l with
  | nil => simp [alGet] at h
  | cons hd tl ih =>
    obtain ⟨k1, v1⟩ := hd
    by_cases hk : k1 = k
    · subst hk
      simp [alGet] at h
      simp [h]
    · simp [alGet, hk] at h
      simp [ih h]

theorem foldl_alUpdate_notMem {α : Type} (f : α → α) (ids : List String)
    (st : List (String × α)) (q : String) (hq : q ∉ ids) :
    alGet (ids.foldl (fun acc i => alUpdate acc i f) st) q = alGet st q := by
  induction ids generalizing st with
  | nil => rfl
  | cons a t ih =>
    simp only [List.mem_cons, not_or] at hq
    rw [List.foldl_cons, ih _ hq.2, alGet_alUpdate_ne _ _ _ _ hq.1]

theorem foldl_alUpdate_mem {α : Type} (f : α → α) (ids : List String)
    (st : List (String × α)) (q : String) (hnd : ids.Nodup) (hq : q ∈ ids) :
    alGet (ids.foldl (fun acc i => alUpdate acc i f) st) q = (alGet st q).map f := by
  induction ids generalizing st with
  | nil => simp at hq
  | cons a t ih =>
    rw [List.foldl_cons]
    rcases List.mem_cons.1 hq with h | h
    · subst h
      rw [foldl_alUpdate_notMem _ _ _ _ (List.nodup_cons.1 hnd).1, alGet_alUpdate_self]
    · rw [ih _ (List.nodup_cons.1 hnd).2 h, alGet_alUpdate_ne]
      intro hqa
      exact (List.nodup_cons.1 hnd).1 (hqa ▸ h)

-- ── Set / filter / draw helper lemmas ────────────────────────

theorem mem_setAdd (s : List String) (x y : String) :
    y ∈ setAdd s x ↔ y ∈ s ∨ y = x := by
  unfold setAdd
  by_cases hx : x ∈ s
  · simp only [if_pos hx]
    constructor
    · exact fun h => Or.inl h
    · rintro (h | h)
      · exact h
      · exact h ▸ hx
  · simp [if_neg hx]

theorem setAdd_append (s : List String) (x : String) :
    ∃ l, setAdd s x = s ++ l := by
  unfold setAdd
  by_cases hx : x ∈ s
  · exact ⟨[], by simp [hx]⟩
  · exact ⟨[x], by simp [hx]⟩

theorem head_filter_some {α : Type} (p : α → Bool) (l : List α) (c : α)
    (h : (l.filter p).head? = some c) :
    c ∈ l ∧ p c = true ∧ ∃ pre post, l = pre ++ c :: post ∧ ∀ x ∈ pre, p x = false := by
  induction l with
  | nil => simp [List.filter] at h
  | cons a t ih =>
    by_cases hp : p a
    · rw [List.filter_cons_of_pos hp] at h
      simp only [List.head?_cons, Option.some.injEq] at h
      subst h
      exact ⟨List.mem_cons_self _ _, hp, [], t, rfl, by simp⟩
    · rw [List.filter_cons_of_neg hp] at h
      obtain ⟨hmem, hpc, pre, post, heq, hpre⟩ := ih h
      refine ⟨List.mem_cons_of_mem _ hmem, hpc, a :: pre, post, by simp [heq], ?_⟩
      intro x hx
      rcases List.mem_cons.1 hx with hxa | hxp
      · subst hxa
        exact Bool.eq_false_iff.2 hp
      · exact hpre x hxp

theorem head_filter_none {α : Type} (p : α → Bool) (l : List α) :
    (l.filter p).head? = none ↔ ∀ x ∈ l, p x = false := by
  rw [List.head?_eq_none_iff, List.filter_eq_nil_iff]
  constructor
  · intro h x hx
    exact Bool.eq_false_iff.2 (h x hx)
  · intro h x hx
    exact Bool.eq_false_iff.1 (h x hx)

-- ── Draw / win-condition / resolution lemmas ─────────────────

theorem drawNextCard_none_iff (r : Room) :
    drawNextCard r = none ↔ ∀ c ∈ r.deck, c.id ∈ r.usedCardIds := by
  unfold drawNextCard
  rw [head_filter_none]
  constructor
  · intro h c hc
    have := h c hc
    simpa using this
  · intro h c hc
    simpa using h c hc

theorem checkWin_none (r : Room) (fc : Bool) (hm : r.winMode = .score_limit)
    (h : ∀ p ∈ r.teams, p.2.score < r.scoreLimit) :
    checkWinCondition r fc = none := by
  unfold checkWinCondition
  rw [hm]
  have : r.teams.find? (fun nt => decide (r.scoreLimit ≤ nt.2.score)) = none := by
    rw [List.find?_eq_none]
    intro x hx
    simpa using not_le.2 (h x hx)
  rw [this]
  rfl

theorem resolveCard_spec (r1 : Room) (cid : String) (res : CardResult) (now : Nat) :
    (resolveCard r1 cid res now).1.teams = r1.teams ∧
    (resolveCard r1 cid res now).1.playerStats = r1.playerStats ∧
    (resolveCard r1 cid res now).1.deck = r1.deck ∧
    (resolveCard r1 cid res now).1.usedCardIds = setAdd r1.usedCardIds cid ∧
    ∃ o, (resolveCard r1 cid res now).2 = Except.ok o := by
  unfold resolveCard
  cases hw : checkWinCondition { r1 with usedCardIds := setAdd r1.usedCardIds cid, currentCard := none } false with
  | some w => simp [hw, clearTimer]
  | none =>
    cases hd : drawNextCard { r1 with usedCardIds := setAdd r1.usedCardIds cid, currentCard := none } with
    | none => simp [hw, hd, clearTimer]
    | some c => simp [hw, hd]

theorem resolveCard_exhausted (r1 : Room) (cid : String) (res : CardResult) (now : Nat)
    (hm : r1.winMode = .score_limit)
    (hscores : ∀ p ∈ r1.teams, p.2.score < r1.scoreLimit)
    (hdeck : ∀ c ∈ r1.deck, c.id ∈ r1.usedCardIds ∨ c.id = cid) :
    (resolveCard r1 cid res now).1.state = .game_over ∧
    (resolveCard r1 cid res now).1.turnPhase = none ∧
    (resolveCard r1 cid res now).1.turnTimer = false ∧
    (resolveCard r1 cid res now).2 =
      Except.ok { result := res, scores := buildScores (resolveCard r1 cid res now).1,
                  nextCard := none, isGameOver := true,
                  winner := findLeader (resolveCard r1 cid res now).1 } := by
  have hw : ∀ fc, checkWinCondition { r1 with usedCardIds := setAdd r1.usedCardIds cid, currentCard := none } fc = none := by
    intro fc
    exact checkWin_none _ fc hm hscores
  have hd : drawNextCard { r1 with usedCardIds := setAdd r1.usedCardIds cid, currentCard := none } = none := by
    rw [drawNextCard_none_iff]
    intro c hc
    rw [show ({ r1 with usedCardIds := setAdd r1.usedCardIds cid, currentCard := none } : Room).usedCardIds = setAdd r1.usedCardIds cid from rfl, mem_setAdd]
    exact hdeck c hc
  simp only [resolveCard, hw, hd]
  simp [clearTimer]

theorem findLeader_pair (r : Room) (ta tb : Team)
    (h : r.teams = [("Equipo A", ta), ("Equipo B", tb)]) :
    findLeader r =
      some (if ta.score < tb.score then "Equipo B"
            else if tb.score = ta.score then "tie" else "Equipo A") := by
  unfold findLeader
  rw [h]
  simp only [List.foldl_cons, List.foldl_nil]
  rcases lt_trichotomy ta.score tb.score with h1 | h1 | h1
  · simp [h1, gt_iff_lt, ne_of_gt h1]
  · simp [h1, lt_irrefl]
  · simp [gt_iff_lt, not_lt.2 (le_of_lt h1), ne_of_lt h1, not_lt.2 (le_of_lt h1)]

-- ── Spectator-activation lemmas ──────────────────────────────

theorem actStep_const (acc : Room × List String) (e : String × Player) :
    (activateSpectatorsStep acc e).1.state = acc.1.state ∧
    (activateSpectatorsStep acc e).1.turnPhase = acc.1.turnPhase ∧
    (activateSpectatorsStep acc e).1.deck = acc.1.deck ∧
    (activateSpectatorsStep acc e).1.currentCard = acc.1.currentCard ∧
    (activateSpectatorsStep acc e).1.usedCardIds = acc.1.usedCardIds ∧
    (activateSpectatorsStep acc e).1.turnTimer = acc.1.turnTimer ∧
    (activateSpectatorsStep acc e).1.activeTeamIndex = acc.1.activeTeamIndex ∧
    (activateSpectatorsStep acc e).1.turnNumber = acc.1.turnNumber ∧
    (activateSpectatorsStep acc e).1.teamOrder = acc.1.teamOrder := by
  unfold activateSpectatorsStep
  dsimp only
  repeat' split
  all_goals exact ⟨rfl, rfl, rfl, rfl, rfl, rfl, rfl, rfl, rfl⟩

theorem actFold_const (l : List (String × Player)) (acc : Room × List String) :
    (l.foldl activateSpectatorsStep acc).1.state = acc.1.state ∧
    (l.foldl activateSpectatorsStep acc).1.turnPhase = acc.1.turnPhase ∧
    (l.foldl activateSpectatorsStep acc).1.deck = acc.1.deck ∧
    (l.foldl activateSpectatorsStep acc).1.currentCard = acc.1.currentCard ∧
    (l.foldl activateSpectatorsStep acc).1.usedCardIds = acc.1.usedCardIds ∧
    (l.foldl activateSpectatorsStep acc).1.turnTimer = acc.1.turnTimer ∧
    (l.foldl activateSpectatorsStep acc).1.activeTeamIndex = acc.1.activeTeamIndex ∧
    (l.foldl activateSpectatorsStep acc).1.turnNumber = acc.1.turnNumber ∧
    (l.foldl activateSpectatorsStep acc).1.teamOrder = acc.1.teamOrder := by
  induction l generalizing acc with
  | nil => exact ⟨rfl, rfl, rfl, rfl, rfl, rfl, rfl, rfl, rfl⟩
  | cons e t ih =>
    rw [List.foldl_cons]
    have h1 := ih (activateSpectatorsStep acc e)
    have h2 := actStep_const acc e
    exact ⟨h1.1.trans h2.1, (h1.2.1).trans h2.2.1, (h1.2.2.1).trans h2.2.2.1,
      (h1.2.2.2.1).trans h2.2.2.2.1, (h1.2.2.2.2.1).trans h2.2.2.2.2.1,
      (h1.2.2.2.2.2.1).trans h2.2.2.2.2.2.1, (h1.2.2.2.2.2.2.1).trans h2.2.2.2.2.2.2.1,
      (h1.2.2.2.2.2.2.2.1).trans h2.2.2.2.2.2.2.2.1,
      (h1.2.2.2.2.2.2.2.2).trans h2.2.2.2.2.2.2.2.2⟩

theorem activateSpectators_const (r : Room) :
    (activateSpectators r).1.state = r.state ∧
    (activateSpectators r).1.turnPhase = r.turnPhase ∧
    (activateSpectators r).1.deck = r.deck ∧
    (activateSpectators r).1.currentCard = r.currentCard ∧
    (activateSpectators r).1.usedCardIds = r.usedCardIds ∧
    (activateSpectators r).1.turnTimer = r.turnTimer ∧
    (activateSpectators r).1.activeTeamIndex = r.activeTeamIndex ∧
    (activateSpectators r).1.turnNumber = r.turnNumber ∧
    (activateSpectators r).1.teamOrder = r.teamOrder :=
  actFold_const r.players (r, [])

-- ── Case analyses of the fallible operations ─────────────────

/-- Every run of `scoreCard` either rejects the action leaving the room as it
was, or applies a score change that touches only `teams` and `playerStats`
and hands the room to `resolveCard`. -/
theorem scoreCard_cases (r : Room) (pid cid : String) (res : CardResult) (now : Nat) :
    (∃ e, scoreCard r pid cid res now = (r, .error e)) ∨
    (∃ r1 : Room, r1.deck = r.deck ∧ r1.usedCardIds = r.usedCardIds ∧
       r1.winMode = r.winMode ∧ r1.scoreLimit = r.scoreLimit ∧
       scoreCard r pid cid res now = resolveCard r1 cid res now) := by
  unfold scoreCard
  by_cases h1 : r.state ≠ GameState.playing
  · rw [if_pos h1]
    exact Or.inl ⟨_, rfl⟩
  rw [if_neg h1]
  by_cases h2 : r.turnPhase ≠ some TurnPhase.turn_active
  · rw [if_pos h2]
    exact Or.inl ⟨_, rfl⟩
  rw [if_neg h2]
  by_cases h3 : r.currentCard.map Card.id ≠ some cid
  · rw [if_pos h3]
    exact Or.inl ⟨_, rfl⟩
  rw [if_neg h3]
  dsimp only
  cases hpl : alGet r.players pid with
  | none =>
    simp only [hpl]
    exact Or.inl ⟨_, rfl⟩
  | some player =>
    simp only [hpl]
    by_cases h4 : res = CardResult.correct ∧ jsStrEq player.teamName (r.teamOrder.get? r.activeTeamIndex) = false
    · rw [if_pos h4]
      exact Or.inl ⟨_, rfl⟩
    rw [if_neg h4]
    by_cases h5 : res = CardResult.buzz ∧ jsStrEq player.teamName (r.teamOrder.get? r.activeTeamIndex) = true
    · rw [if_pos h5]
      exact Or.inl ⟨_, rfl⟩
    rw [if_neg h5]
    by_cases h6 : res = CardResult.skip ∧ ¬ some pid = getCurrentDescriberId r
    · rw [if_pos h6]
      exact Or.inl ⟨_, rfl⟩
    rw [if_neg h6]
    cases res with
    | skip => exact Or.inr ⟨_, rfl, rfl, rfl, rfl, rfl⟩
    | correct =>
      cases hto : r.teamOrder.get? r.activeTeamIndex with
      | none =>
        simp only [hto, Option.bind]
        exact Or.inl ⟨_, rfl⟩
      | some tn =>
        simp only [hto, Option.bind]
        cases ht : alGet r.teams tn with
        | none =>
          simp only [ht]
          exact Or.inl ⟨_, rfl⟩
        | some team =>
          simp only [ht]
          refine Or.inr ⟨_, ?_, ?_, ?_, ?_, rfl⟩ <;> rfl
    | buzz =>
      cases hto : r.teamOrder.get? r.activeTeamIndex with
      | none =>
        simp only [hto, Option.bind]
        exact Or.inl ⟨_, rfl⟩
      | some tn =>
        simp only [hto, Option.bind]
        cases ht : alGet r.teams tn with
        | none =>
          simp only [ht]
          exact Or.inl ⟨_, rfl⟩
        | some team =>
          simp only [ht]
          refine Or.inr ⟨_, ?_, ?_, ?_, ?_, rfl⟩ <;> rfl

theorem setDescriberReady_cases (r : Room) (pid : String) (now : Nat) :
    (∃ e, setDescriberReady r pid now = (r, .error e)) ∨
    (∃ c i, setDescriberReady r pid now =
      ({ r with currentCard := some c, turnPhase := some .turn_active,
                secondsRemaining := TURN_DURATION_SECONDS, lastActivityAt := now },
       .ok { card := c, turnInfo := i })) := by
  unfold setDescriberReady
  by_cases h1 : r.state ≠ GameState.playing
  · rw [if_pos h1]
    exact Or.inl ⟨_, rfl⟩
  rw [if_neg h1]
  by_cases h2 : r.turnPhase ≠ some TurnPhase.waiting_for_describer
  · rw [if_pos h2]
    exact Or.inl ⟨_, rfl⟩
  rw [if_neg h2]
  by_cases h3 : some pid ≠ getCurrentDescriberId r
  · rw [if_pos h3]
    exact Or.inl ⟨_, rfl⟩
  rw [if_neg h3]
  cases hd : drawNextCard r with
  | none =>
    simp only [hd]
    exact Or.inl ⟨_, rfl⟩
  | some c =>
    simp only [hd]
    exact Or.inr ⟨c, _, rfl⟩

theorem endTurn_used (r : Room) (now : Nat) :
    ∃ l, (endTurn r now).1.usedCardIds = r.usedCardIds ++ l := by
  have hact : ∀ s : Room, (activateSpectators s).1.usedCardIds = s.usedCardIds :=
    fun s => (actFold_const s.players (s, [])).2.2.2.2.1
  cases hcc : r.currentCard with
  | none =>
    cases hto : r.teamOrder.get? r.activeTeamIndex with
    | none =>
      refine ⟨[], ?_⟩
      simp only [endTurn, clearTimer, hcc, hto, List.append_nil]
      exact hact _
    | some tn =>
      refine ⟨[], ?_⟩
      simp only [endTurn, clearTimer, hcc, hto, List.append_nil]
      exact hact _
  | some c =>
    obtain ⟨l, hl⟩ := setAdd_append r.usedCardIds c.id
    cases hto : r.teamOrder.get? r.activeTeamIndex with
    | none =>
      refine ⟨l, ?_⟩
      simp only [endTurn, clearTimer, hcc, hto]
      rw [hact _]
      exact hl
    | some tn =>
      refine ⟨l, ?_⟩
      simp only [endTurn, clearTimer, hcc, hto]
      rw [hact _]
      exact hl

-- ── C1 ───────────────────────────────────────────────────────

/-- C1: in classic mode the draw returns the first deck card whose id is not
in `usedCardIds`; it returns null exactly when every deck card's id is used;
a used id is never drawn, and the used set only grows during a session
(`scoreCard` and `endTurn` only append to it). -/
theorem claim1_draw_policy (r : Room) :
    (∀ c, drawNextCard r = some c →
      c ∈ r.deck ∧ c.id ∉ r.usedCardIds ∧
      ∃ pre post, r.deck = pre ++ c :: post ∧ ∀ x ∈ pre, x.id ∈ r.usedCardIds) ∧
    (drawNextCard r = none ↔ ∀ c ∈ r.deck, c.id ∈ r.usedCardIds) ∧
    (∀ i ∈ r.usedCardIds, ∀ c, drawNextCard r = some c → c.id ≠ i) ∧
    (∀ pid cid res now, ∃ l, (scoreCard r pid cid res now).1.usedCardIds = r.usedCardIds ++ l) ∧
    (∀ now, ∃ l, (endTurn r now).1.usedCardIds = r.usedCardIds ++ l) := by
  refine ⟨?_, drawNextCard_none_iff r, ?_, ?_, fun now => endTurn_used r now⟩
  · intro c hc
    have hc2 : (r.deck.filter (fun c => !(decide (c.id ∈ r.usedCardIds)))).head? = some c := hc
    obtain ⟨hmem, hp, pre, post, heq, hpre⟩ := head_filter_some _ _ _ hc2
    refine ⟨hmem, by simpa using hp, pre, post, heq, ?_⟩
    intro x hx
    simpa using hpre x hx
  · intro i hi c hc
    have hc2 : (r.deck.filter (fun c => !(decide (c.id ∈ r.usedCardIds)))).head? = some c := hc
    obtain ⟨_, hp, _⟩ := head_filter_some _ _ _ hc2
    intro hci
    rw [hci] at hp
    simp [hi] at hp
  · intro pid cid res now
    rcases scoreCard_cases r pid cid res now with ⟨e, he⟩ | ⟨r1, _, hused, _, _, he⟩
    · exact ⟨[], by rw [he, List.append_nil]⟩
    · rw [he, (resolveCard_spec r1 cid res now).2.2.2.1, hused]
      exact setAdd_append _ _

theorem claim1_witness :
    drawNextCard { midTurn22 with usedCardIds := ["card-1"] } = some (mkCard "card-2") ∧
    (mkCard "card-2").id ∉ ({ midTurn22 with usedCardIds := ["card-1"] } : Room).usedCardIds ∧
    drawNextCard { midTurn22 with usedCardIds := ["card-1", "card-2", "card-3"] } = none := by
  refine ⟨by rfl,
    ((claim1_draw_policy { midTurn22 with usedCardIds := ["card-1"] }).1 (mkCard "card-2") (by rfl)).2.1, ?_⟩
  exact (claim1_draw_policy _).2.1.mpr (by decide)

-- ── C5 ───────────────────────────────────────────────────────

/-- C5: an error return from `scoreCard` or `setDescriberReady` leaves the
entire room state (every field) exactly as it was before the call. -/
theorem claim5_error_no_mutation (r : Room) (pid cid : String) (res : CardResult) (now : Nat) :
    (∀ e, (scoreCard r pid cid res now).2 = .error e → (scoreCard r pid cid res now).1 = r) ∧
    (∀ e, (setDescriberReady r pid now).2 = .error e → (setDescriberReady r pid now).1 = r) := by
  constructor
  · intro e he
    rcases scoreCard_cases r pid cid res now with ⟨e2, h⟩ | ⟨r1, _, _, _, _, h⟩
    · rw [h]
    · obtain ⟨o, ho⟩ := (resolveCard_spec r1 cid res now).2.2.2.2
      rw [h, ho] at he
      exact absurd he (by simp)
  · intro e he
    rcases setDescriberReady_cases r pid now with ⟨e2, h⟩ | ⟨c, i, h⟩
    · rw [h]
    · rw [h] at he
      exact absurd he (by simp)

theorem claim5_witness :
    (scoreCard lobby22 "host" "card-1" CardResult.correct 0).2 = .error .NOT_PLAYING ∧
    (scoreCard lobby22 "host" "card-1" CardResult.correct 0).1 = lobby22 ∧
    (setDescriberReady midTurn22 "p3" 0).2 = .error .NOT_YOUR_TURN ∧
    (setDescriberReady midTurn22 "p3" 0).1 = midTurn22 := by
  refine ⟨by rfl,
    (claim5_error_no_mutation lobby22 "host" "card-1" .correct 0).1 .NOT_PLAYING (by rfl),
    by rfl,
    (claim5_error_no_mutation midTurn22 "p3" "card-1" .correct 0).2 .NOT_YOUR_TURN (by rfl)⟩

-- ── C6 ───────────────────────────────────────────────────────

/-- C6: `canStart` returns an error unless the requester is the host, the
room is in the lobby, and every team has at least `MIN_PLAYERS_PER_TEAM`
members; team sizes {2,2} may start, {1,3} may not. -/
theorem claim6_canStart (r : Room) (pid : String) :
    (canStart r pid = none ↔
      pid = r.hostPlayerId ∧ r.state = .lobby ∧
      ∀ nt ∈ r.teams, MIN_PLAYERS_PER_TEAM ≤ nt.2.memberIds.length) ∧
    canStart lobby22 "host" = none ∧
    canStart lobby13 "host" = some .NEED_MORE_PLAYERS := by
  refine ⟨?_, by rfl, by rfl⟩
  unfold canStart
  by_cases h1 : pid = r.hostPlayerId
  · by_cases h2 : r.state = GameState.lobby
    · simp [h1, h2, List.any_eq_true, not_lt]
    · simp [h1, h2]
  · simp [h1]

theorem claim6_witness : canStart lobby22 "host" = none :=
  (claim6_canStart lobby22 "host").1.mpr (by decide)

-- ── C9 ───────────────────────────────────────────────────────

/-- C9: in an active turn a submission for a card other than the one in play
is rejected as `WRONG_CARD` for every requester, while an unauthorized
requester submitting the current card gets `NOT_YOUR_TURN` or
`CANNOT_BUZZ_OWN_TEAM`; the codes are distinct, so the failure modes are
distinguishable. -/
theorem claim9_wrong_card_distinct (r : Room) (now : Nat)
    (hs : r.state = .playing) (hp : r.turnPhase = some .turn_active) :
    (∀ pid cid res, r.currentCard.map Card.id ≠ some cid →
       (scoreCard r pid cid res now).2 = .error .WRONG_CARD) ∧
    (∀ pid cid res player, r.currentCard.map Card.id = some cid →
       alGet r.players pid = some player →
       ((res = CardResult.correct ∧ jsStrEq player.teamName (r.teamOrder.get? r.activeTeamIndex) = false) ∨
        (res = CardResult.buzz ∧ jsStrEq player.teamName (r.teamOrder.get? r.activeTeamIndex) = true) ∨
        (res = CardResult.skip ∧ ¬ some pid = getCurrentDescriberId r)) →
       ((scoreCard r pid cid res now).2 = .error .NOT_YOUR_TURN ∨
        (scoreCard r pid cid res now).2 = .error .CANNOT_BUZZ_OWN_TEAM)) ∧
    (GameError.WRONG_CARD ≠ GameError.NOT_YOUR_TURN ∧
     GameError.WRONG_CARD ≠ GameError.CANNOT_BUZZ_OWN_TEAM) := by
  refine ⟨?_, ?_, by decide⟩
  · intro pid cid res hcc
    unfold scoreCard
    rw [if_neg (by simp [hs]), if_neg (by simp [hp]), if_pos hcc]
  · intro pid cid res player hcc hpl hcase
    unfold scoreCard
    rw [if_neg (by simp [hs]), if_neg (by simp [hp]), if_neg (by simp [hcc])]
    dsimp only
    simp only [hpl]
    rcases hcase with ⟨hres, hteam⟩ | ⟨hres, hteam⟩ | ⟨hres, hdesc⟩
    · subst hres
      rw [if_pos ⟨rfl, hteam⟩]
      exact Or.inl rfl
    · subst hres
      rw [if_neg (by simp), if_pos ⟨rfl, hteam⟩]
      exact Or.inr rfl
    · subst hres
      rw [if_neg (by simp), if_neg (by simp), if_pos ⟨rfl, hdesc⟩]
      exact Or.inl rfl

theorem claim9_witness :
    (scoreCard midTurn22 "p3" "card-2" CardResult.correct 0).2 = .error .WRONG_CARD ∧
    ((scoreCard midTurn22 "p3" "card-1" CardResult.correct 0).2 = .error .NOT_YOUR_TURN ∨
     (scoreCard midTurn22 "p3" "card-1" CardResult.correct 0).2 = .error .CANNOT_BUZZ_OWN_TEAM) := by
  have h := claim9_wrong_card_distinct midTurn22 0 (by rfl) (by rfl)
  refine ⟨h.1 "p3" "card-2" .correct (by decide), ?_⟩
  exact h.2.1 "p3" "card-1" .correct
    { id := "p3", name := "Caro", teamName := some "Equipo B", socketId := "s2",
      isHost := false, status := .active, joinOrder := 2 }
    (by rfl) (by rfl) (Or.inl ⟨rfl, by rfl⟩)

-- ── Success paths of scoreCard ───────────────────────────────

theorem scoreCard_buzz_run (r : Room) (pid cid : String) (now : Nat) (card : Card)
    (player : Player) (tn : String) (team : Team)
    (hs : r.state = .playing) (hp : r.turnPhase = some .turn_active)
    (hc : r.currentCard = some card) (hcid : card.id = cid)
    (hpl : alGet r.players pid = some player)
    (htn : r.teamOrder.get? r.activeTeamIndex = some tn)
    (hteam : alGet r.teams tn = some team)
    (hoff : jsStrEq player.teamName (some tn) = false) :
    scoreCard r pid cid .buzz now =
      resolveCard { r with teams := alUpdate r.teams tn (fun t => { t with score := t.score - 1 }) }
        cid .buzz now := by
  unfold scoreCard
  rw [if_neg (by simp [hs]), if_neg (by simp [hp]), if_neg (by simp [hc, hcid])]
  dsimp only
  simp only [hpl, htn]
  rw [if_neg (by simp), if_neg (by simp [hoff]), if_neg (by simp)]
  simp only [Option.some_bind, hteam]

theorem scoreCard_correct_run (r : Room) (pid cid : String) (now : Nat) (card : Card)
    (player : Player) (tn : String) (team : Team)
    (hs : r.state = .playing) (hp : r.turnPhase = some .turn_active)
    (hc : r.currentCard = some card) (hcid : card.id = cid)
    (hpl : alGet r.players pid = some player)
    (htn : r.teamOrder.get? r.activeTeamIndex = some tn)
    (hteam : alGet r.teams tn = some team)
    (hon : jsStrEq player.teamName (some tn) = true) :
    scoreCard r pid cid .correct now =
      resolveCard { r with
        teams := alUpdate r.teams tn (fun t => { t with score := t.score + 1 })
        playerStats :=
          (team.memberIds.filter (fun i => some i != getCurrentDescriberId r)).foldl
            (fun st i => alUpdate st i (fun s => { s with guessed := s.guessed + 1 }))
            (match getCurrentDescriberId r with
             | some did => alUpdate r.playerStats did (fun s => { s with described := s.described + 1 })
             | none => r.playerStats) }
        cid .correct now := by
  unfold scoreCard
  rw [if_neg (by simp [hs]), if_neg (by simp [hp]), if_neg (by simp [hc, hcid])]
  dsimp only
  simp only [hpl, htn]
  rw [if_neg (by simp [hon]), if_neg (by simp), if_neg (by simp)]
  simp only [Option.some_bind, hteam]

-- ── C2 ───────────────────────────────────────────────────────

/-- C2: a valid `correct` submission by an active-team member increments the
active team's score by exactly one, bumps the current describer's `described`
counter and the `guessed` counter of every other rotation member of the
active team, and changes no other team and no other participant's stats
(exactly team-size counters in total). -/
theorem claim2_score_correct (r : Room) (pid : String) (now : Nat) (card : Card)
    (player : Player) (tn : String) (team : Team) (did : String)
    (hs : r.state = .playing) (hp : r.turnPhase = some .turn_active)
    (hc : r.currentCard = some card)
    (hpl : alGet r.players pid = some player)
    (htn : r.teamOrder.get? r.activeTeamIndex = some tn)
    (hteam : alGet r.teams tn = some team)
    (hmem : player.teamName = some tn)
    (hnd : team.memberIds.Nodup)
    (hdid : getCurrentDescriberId r = some did) :
    (∃ o, (scoreCard r pid card.id .correct now).2 = Except.ok o) ∧
    did ∈ team.memberIds ∧
    alGet (scoreCard r pid card.id .correct now).1.teams tn =
      some { team with score := team.score + 1 } ∧
    (∀ tn2, tn2 ≠ tn →
       alGet (scoreCard r pid card.id .correct now).1.teams tn2 = alGet r.teams tn2) ∧
    (∀ s, alGet r.playerStats did = some s →
       alGet (scoreCard r pid card.id .correct now).1.playerStats did =
         some { s with described := s.described + 1 }) ∧
    (∀ m ∈ team.memberIds, m ≠ did → ∀ s, alGet r.playerStats m = some s →
       alGet (scoreCard r pid card.id .correct now).1.playerStats m =
         some { s with guessed := s.guessed + 1 }) ∧
    (∀ q, q ∉ team.memberIds →
       alGet (scoreCard r pid card.id .correct now).1.playerStats q = alGet r.playerStats q) := by
  have hon : jsStrEq player.teamName (some tn) = true := by
    rw [hmem]
    simp [jsStrEq]
  have hrun := scoreCard_correct_run r pid card.id now card player tn team hs hp hc rfl hpl htn hteam hon
  have hdidmem : did ∈ team.memberIds := by
    unfold getCurrentDescriberId getActiveTeam at hdid
    rw [htn] at hdid
    simp only [hteam] at hdid
    by_cases hlen : team.memberIds.length = 0
    · rw [if_pos hlen] at hdid
      exact absurd hdid (by simp)
    · rw [if_neg hlen] at hdid
      exact List.get?_mem hdid
  have hspec := resolveCard_spec
    { r with
      teams := alUpdate r.teams tn (fun t => { t with score := t.score + 1 })
      playerStats :=
        (team.memberIds.filter (fun i => some i != getCurrentDescriberId r)).foldl
          (fun st i => alUpdate st i (fun s => { s with guessed := s.guessed + 1 }))
          (match getCurrentDescriberId r with
           | some did => alUpdate r.playerStats did (fun s => { s with described := s.described + 1 })
           | none => r.playerStats) }
    card.id .correct now
  have hteams : (scoreCard r pid card.id .correct now).1.teams =
      alUpdate r.teams tn (fun t => { t with score := t.score + 1 }) := by
    rw [hrun, hspec.1]
  have hstats : (scoreCard r pid card.id .correct now).1.playerStats =
      (team.memberIds.filter (fun i => some i != some did)).foldl
        (fun st i => alUpdate st i (fun s => { s with guessed := s.guessed + 1 }))
        (alUpdate r.playerStats did (fun s => { s with described := s.described + 1 })) := by
    rw [hrun, hspec.2.1, hdid]
  have hdidfilter : did ∉ team.memberIds.filter (fun i => some i != some did) := by
    intro hin
    have := (List.mem_filter.1 hin).2
    simp at this
  refine ⟨?_, hdidmem, ?_, ?_, ?_, ?_, ?_⟩
  · rw [hrun]
    exact hspec.2.2.2.2
  · rw [hteams, alGet_alUpdate_self, hteam]
    rfl
  · intro tn2 h2
    rw [hteams, alGet_alUpdate_ne _ _ _ _ h2]
  · intro s hdstat
    rw [hstats, foldl_alUpdate_notMem _ _ _ _ hdidfilter, alGet_alUpdate_self, hdstat]
    rfl
  · intro m hm hmd s hmstat
    have hmf : m ∈ team.memberIds.filter (fun i => some i != some did) := by
      rw [List.mem_filter]
      exact ⟨hm, by simp [hmd]⟩
    rw [hstats, foldl_alUpdate_mem _ _ _ _ (hnd.filter _) hmf,
        alGet_alUpdate_ne _ _ _ _ hmd, hmstat]
    rfl
  · intro q hq
    have hqf : q ∉ team.memberIds.filter (fun i => some i != some did) := by
      intro hin
      exact hq (List.mem_filter.1 hin).1
    have hqd : q ≠ did := fun h => hq (h ▸ hdidmem)
    rw [hstats, foldl_alUpdate_notMem _ _ _ _ hqf, alGet_alUpdate_ne _ _ _ _ hqd]

theorem claim2_witness :
    (∃ o, (scoreCard midTurn22 "p2" "card-1" CardResult.correct 0).2 = Except.ok o) ∧
    alGet (scoreCard midTurn22 "p2" "card-1" CardResult.correct 0).1.teams "Equipo A" =
      some { name := "Equipo A", score := 1, memberIds := ["host", "p2"], describerIndex := 0 } ∧
    alGet (scoreCard midTurn22 "p2" "card-1" CardResult.correct 0).1.playerStats "host" =
      some { described := 1, guessed := 0 } ∧
    alGet (scoreCard midTurn22 "p2" "card-1" CardResult.correct 0).1.playerStats "p2" =
      some { described := 0, guessed := 1 } := by
  have h := claim2_score_correct midTurn22 "p2" 0 (mkCard "card-1")
    { id := "p2", name := "Blas", teamName := some "Equipo A", socketId := "s1",
      isHost := false, status := .active, joinOrder := 1 }
    "Equipo A"
    { name := "Equipo A", score := 0, memberIds := ["host", "p2"], describerIndex := 0 }
    "host"
    (by rfl) (by rfl) (by rfl) (by rfl) (by rfl) (by rfl) (by rfl) (by decide) (by rfl)
  exact ⟨h.1, h.2.2.1, h.2.2.2.2.1 { described := 0, guessed := 0 } (by rfl),
    h.2.2.2.2.2.1 "p2" (by decide) (by decide) { described := 0, guessed := 0 } (by rfl)⟩

-- ── C10 ──────────────────────────────────────────────────────

/-- C10: a valid buzz from a non-active-team member decrements the active
team's score by exactly one with no clamping, so a team at score 0 is left at
-1; no other team changes. -/
theorem claim10_buzz_decrement (r : Room) (pid cid : String) (now : Nat) (card : Card)
    (player : Player) (tn : String) (team : Team)
    (hs : r.state = .playing) (hp : r.turnPhase = some .turn_active)
    (hc : r.currentCard = some card) (hcid : card.id = cid)
    (hpl : alGet r.players pid = some player)
    (htn : r.teamOrder.get? r.activeTeamIndex = some tn)
    (hteam : alGet r.teams tn = some team)
    (hoff : jsStrEq player.teamName (some tn) = false) :
    (∃ o, (scoreCard r pid cid .buzz now).2 = Except.ok o) ∧
    alGet (scoreCard r pid cid .buzz now).1.teams tn =
      some { team with score := team.score - 1 } ∧
    (team.score = 0 →
       alGet (scoreCard r pid cid .buzz now).1.teams tn = some { team with score := -1 }) ∧
    (∀ tn2, tn2 ≠ tn →
       alGet (scoreCard r pid cid .buzz now).1.teams tn2 = alGet r.teams tn2) := by
  have hrun := scoreCard_buzz_run r pid cid now card player tn team hs hp hc hcid hpl htn hteam hoff
  have hspec := resolveCard_spec
    { r with teams := alUpdate r.teams tn (fun t => { t with score := t.score - 1 }) }
    cid .buzz now
  have hteams : (scoreCard r pid cid .buzz now).1.teams =
      alUpdate r.teams tn (fun t => { t with score := t.score - 1 }) := by
    rw [hrun, hspec.1]
  have hmain : alGet (scoreCard r pid cid .buzz now).1.teams tn =
      some { team with score := team.score - 1 } := by
    rw [hteams, alGet_alUpdate_self, hteam]
    rfl
  refine ⟨?_, hmain, ?_, ?_⟩
  · rw [hrun]
    exact hspec.2.2.2.2
  · intro hz
    rw [hmain, hz]
    rfl
  · intro tn2 h2
    rw [hteams, alGet_alUpdate_ne _ _ _ _ h2]

theorem claim10_witness :
    Reachable midTurn22 ∧
    alGet midTurn22.teams "Equipo A" =
      some { name := "Equipo A", score := 0, memberIds := ["host", "p2"], describerIndex := 0 } ∧
    alGet (scoreCard midTurn22 "p3" "card-1" CardResult.buzz 0).1.teams "Equipo A" =
      some { name := "Equipo A", score := -1, memberIds := ["host", "p2"], describerIndex := 0 } := by
  refine ⟨?_, by rfl, ?_⟩
  · exact Reachable.ready "host" 0
      (Reachable.start "host" sampleDeck 0
        (Reachable.add "s3" "p4" "Dani" "Equipo B" 0
          (Reachable.add "s2" "p3" "Caro" "Equipo B" 0
            (Reachable.add "s1" "p2" "Blas" "Equipo A" 0
              (Reachable.init "ROOM01" "s0" "host" "Ana" 0))))
        (by rfl))
  · have h := claim10_buzz_decrement midTurn22 "p3" "card-1" 0 (mkCard "card-1")
      { id := "p3", name := "Caro", teamName := some "Equipo B", socketId := "s2",
        isHost := false, status := .active, joinOrder := 2 }
      "Equipo A"
      { name := "Equipo A", score := 0, memberIds := ["host", "p2"], describerIndex := 0 }
      (by rfl) (by rfl) (by rfl) (by rfl) (by rfl) (by rfl) (by rfl) (by rfl)
    exact h.2.2.1 rfl

-- ── C3 ───────────────────────────────────────────────────────

/-- C3: when `scoreCard` resolves a card and no unused card remains for the
next draw (and no team has reached the score limit, so the score-limit branch
does not fire first), the same call ends the game — state `game_over`, phase
cleared, timer cleared, no error — and the reported winner is the strictly
higher-scoring team, or the distinct value "tie" when the scores are equal. -/
theorem claim3_deck_exhaustion (r : Room) (pid cid : String) (res : CardResult) (now : Nat)
    (out : ScoreOk) (ta tb : Team)
    (hok : (scoreCard r pid cid res now).2 = Except.ok out)
    (hmode : r.winMode = .score_limit)
    (hteams : (scoreCard r pid cid res now).1.teams = [("Equipo A", ta), ("Equipo B", tb)])
    (hwin : ∀ p ∈ (scoreCard r pid cid res now).1.teams, p.2.score < r.scoreLimit)
    (hdeck : ∀ c ∈ r.deck, c.id ∈ r.usedCardIds ∨ c.id = cid) :
    (scoreCard r pid cid res now).1.state = .game_over ∧
    (scoreCard r pid cid res now).1.turnPhase = none ∧
    (scoreCard r pid cid res now).1.turnTimer = false ∧
    out.isGameOver = true ∧
    out.nextCard = none ∧
    out.winner = some (if ta.score < tb.score then "Equipo B"
                       else if tb.score = ta.score then "tie" else "Equipo A") := by
  rcases scoreCard_cases r pid cid res now with ⟨e, he⟩ | ⟨r1, hd1, hu1, hw1, hl1, he⟩
  · rw [he] at hok
    exact absurd hok (by simp)
  · have hspec := resolveCard_spec r1 cid res now
    have hr1teams : r1.teams = [("Equipo A", ta), ("Equipo B", tb)] := by
      rw [← hspec.1, ← he]
      exact hteams
    have hr1mode : r1.winMode = .score_limit := by
      rw [hw1, hmode]
    have hr1scores : ∀ p ∈ r1.teams, p.2.score < r1.scoreLimit := by
      intro p hp
      rw [hl1]
      apply hwin
      rw [he, hspec.1]
      exact hp
    have hr1deck : ∀ c ∈ r1.deck, c.id ∈ r1.usedCardIds ∨ c.id = cid := by
      intro c hc
      rw [hu1]
      exact hdeck c (hd1 ▸ hc)
    have hex := resolveCard_exhausted r1 cid res now hr1mode hr1scores hr1deck
    have hfst : (scoreCard r pid cid res now).1 = (resolveCard r1 cid res now).1 := by
      rw [he]
    have hout : out = { result := res, scores := buildScores (resolveCard r1 cid res now).1,
                        nextCard := none, isGameOver := true,
                        winner := findLeader (resolveCard r1 cid res now).1 } := by
      have := hok
      rw [he, hex.2.2.2] at this
      exact (Except.ok.inj this).symm
    have hld : findLeader (resolveCard r1 cid res now).1 =
        some (if ta.score < tb.score then "Equipo B"
              else if tb.score = ta.score then "tie" else "Equipo A") := by
      apply findLeader_pair
      rw [hspec.1]
      exact hr1teams
    refine ⟨?_, ?_, ?_, ?_, ?_, ?_⟩
    · rw [hfst]
      exact hex.1
    · rw [hfst]
      exact hex.2.1
    · rw [hfst]
      exact hex.2.2.1
    · rw [hout]
    · rw [hout]
    · rw [hout]
      exact hld

theorem claim3_witness :
    (scoreCard lastCard22 "host" "only" CardResult.skip 0).2 =
      Except.ok { result := .skip, scores := [("Equipo A", 0), ("Equipo B", 0)],
                  nextCard := none, isGameOver := true, winner := some "tie" } ∧
    (scoreCard lastCard22 "host" "only" CardResult.skip 0).1.state = .game_over ∧
    (scoreCard lastCard22 "host" "only" CardResult.skip 0).1.turnPhase = none ∧
    (scoreCard lastCard22 "host" "only" CardResult.skip 0).1.turnTimer = false := by
  have h := claim3_deck_exhaustion lastCard22 "host" "only" CardResult.skip 0
    { result := .skip, scores := [("Equipo A", 0), ("Equipo B", 0)],
      nextCard := none, isGameOver := true, winner := some "tie" }
    { name := "Equipo A", score := 0, memberIds := ["host", "p2"], describerIndex := 0 }
    { name := "Equipo B", score := 0, memberIds := ["p3", "p4"], describerIndex := 0 }
    (by rfl) (by rfl) (by rfl) (by decide) (by decide)
  exact ⟨by rfl, h.1, h.2.1, h.2.2.1⟩

-- ── Finer spectator-activation lemmas (for the turn-close claim) ──

theorem actStep_players (acc : Room × List String) (e : String × Player) :
    (activateSpectatorsStep acc e).1.players =
      (if e.2.status = PStatus.spectating then
        alUpdate acc.1.players e.1 (fun p => { p with status := PStatus.active })
      else acc.1.players) := by
  unfold activateSpectatorsStep
  dsimp only
  by_cases hsp : e.2.status = PStatus.spectating
  · rw [if_pos hsp, if_pos hsp]
    cases htm : e.2.teamName with
    | none => rfl
    | some tn2 =>
      dsimp only
      cases ht : alGet acc.1.teams tn2 with
      | none => rfl
      | some T2 =>
        dsimp only
        by_cases hm : e.1 ∈ T2.memberIds
        · rw [if_pos hm]
        · rw [if_neg hm]
  · rw [if_neg hsp, if_neg hsp]

theorem actStep_teams (acc : Room × List String) (e : String × Player) (tn : String) :
    (alGet (activateSpectatorsStep acc e).1.teams tn = alGet acc.1.teams tn) ∨
    (∃ T, alGet acc.1.teams tn = some T ∧
       alGet (activateSpectatorsStep acc e).1.teams tn =
         some { T with memberIds := T.memberIds ++ [e.1] }) := by
  unfold activateSpectatorsStep
  dsimp only
  by_cases hsp : e.2.status = PStatus.spectating
  · rw [if_pos hsp]
    cases htm : e.2.teamName with
    | none => exact Or.inl rfl
    | some tn2 =>
      dsimp only
      cases ht : alGet acc.1.teams tn2 with
      | none => exact Or.inl rfl
      | some T2 =>
        dsimp only
        by_cases hm : e.1 ∈ T2.memberIds
        · rw [if_pos hm]
          exact Or.inl rfl
        · rw [if_neg hm]
          by_cases htt : tn = tn2
          · subst htt
            refine Or.inr ⟨T2, ht, ?_⟩
            rw [alGet_alUpdate_self, ht]
            rfl
          · refine Or.inl ?_
            rw [alGet_alUpdate_ne _ _ _ _ htt]
  · rw [if_neg hsp]
    exact Or.inl rfl

theorem actFold_teams (l : List (String × Player)) (acc : Room × List String) (tn : String) :
    (alGet acc.1.teams tn = none ∧ alGet (l.foldl activateSpectatorsStep acc).1.teams tn = none) ∨
    (∃ T T2, alGet acc.1.teams tn = some T ∧
       alGet (l.foldl activateSpectatorsStep acc).1.teams tn = some T2 ∧
       T2.score = T.score ∧ T2.describerIndex = T.describerIndex ∧ T2.name = T.name ∧
       ∃ ext, T2.memberIds = T.memberIds ++ ext) := by
  induction l generalizing acc with
  | nil =>
    cases h : alGet acc.1.teams tn with
    | none => exact Or.inl ⟨rfl, h⟩
    | some T => exact Or.inr ⟨T, T, rfl, h, rfl, rfl, rfl, [], by simp⟩
  | cons e t ih =>
    rw [List.foldl_cons]
    rcases actStep_teams acc e tn with hstep | ⟨T, hT, hstep⟩
    · rcases ih (activateSpectatorsStep acc e) with ⟨h1, h2⟩ | ⟨T, T2, h1, h2, hsc, hdi, hnm, ext, hm⟩
      · exact Or.inl ⟨hstep ▸ h1, h2⟩
      · exact Or.inr ⟨T, T2, hstep ▸ h1, h2, hsc, hdi, hnm, ext, hm⟩
    · rcases ih (activateSpectatorsStep acc e) with ⟨h1, _⟩ | ⟨T1, T2, h1, h2, hsc, hdi, hnm, ext, hm⟩
      · rw [hstep] at h1
        cases h1
      · rw [hstep] at h1
        injection h1 with h1
        refine Or.inr ⟨T, T2, hT, h2, ?_, ?_, ?_, [e.1] ++ ext, ?_⟩
        · rw [hsc, ← h1]
        · rw [hdi, ← h1]
        · rw [hnm, ← h1]
        · rw [hm, ← h1]
          simp

theorem actFold_active (l : List (String × Player)) (acc : Room × List String)
    (hpre : ∀ pid p, alGet acc.1.players pid = some p →
       p.status = PStatus.active ∨ ∃ q, (pid, q) ∈ l ∧ q.status = PStatus.spectating) :
    ∀ pid p, alGet (l.foldl activateSpectatorsStep acc).1.players pid = some p →
      p.status = PStatus.active := by
  induction l generalizing acc with
  | nil =>
    intro pid p h
    rcases hpre pid p h with h1 | ⟨q, hq, _⟩
    · exact h1
    · simp at hq
  | cons e t ih =>
    rw [List.foldl_cons]
    apply ih
    intro pid p hget
    rw [actStep_players] at hget
    by_cases hsp : e.2.status = PStatus.spectating
    · rw [if_pos hsp] at hget
      by_cases hpe : pid = e.1
      · subst hpe
        rw [alGet_alUpdate_self] at hget
        cases hp0 : alGet acc.1.players e.1 with
        | none =>
          rw [hp0] at hget
          cases hget
        | some p0 =>
          rw [hp0] at hget
          injection hget with hget
          left
          rw [← hget]
      · rw [alGet_alUpdate_ne _ _ _ _ hpe] at hget
        rcases hpre pid p hget with h1 | ⟨q, hq, hq2⟩
        · exact Or.inl h1
        · rcases List.mem_cons.1 hq with heq | hint
          · exact absurd (congrArg Prod.fst heq) hpe
          · exact Or.inr ⟨q, hint, hq2⟩
    · rw [if_neg hsp] at hget
      rcases hpre pid p hget with h1 | ⟨q, hq, hq2⟩
      · exact Or.inl h1
      · rcases List.mem_cons.1 hq with heq | hint
        · rw [show q = e.2 from congrArg Prod.snd heq] at hq2
          exact absurd hq2 hsp
        · exact Or.inr ⟨q, hint, hq2⟩

theorem actFold_memPersist (l : List (String × Player)) (acc : Room × List String)
    (tn pid : String) (T : Team)
    (hT : alGet acc.1.teams tn = some T) (hm : pid ∈ T.memberIds) :
    ∃ T2, alGet (l.foldl activateSpectatorsStep acc).1.teams tn = some T2 ∧
      pid ∈ T2.memberIds := by
  rcases actFold_teams l acc tn with ⟨h1, _⟩ | ⟨Ta, T2, h1, h2, _, _, _, ext, hext⟩
  · rw [hT] at h1
    cases h1
  · rw [hT] at h1
    injection h1 with h1
    refine ⟨T2, h2, ?_⟩
    rw [hext, ← h1]
    exact List.mem_append_left _ hm

theorem actFold_member (l : List (String × Player)) (acc : Room × List String)
    (pid : String) (p : Player) (tn : String)
    (hin : (pid, p) ∈ l) (hsp : p.status = PStatus.spectating) (htm : p.teamName = some tn)
    (hex : ∃ T, alGet acc.1.teams tn = some T) :
    ∃ T2, alGet (l.foldl activateSpectatorsStep acc).1.teams tn = some T2 ∧
      pid ∈ T2.memberIds := by
  induction l generalizing acc with
  | nil => simp at hin
  | cons e t ih =>
    rw [List.foldl_cons]
    rcases List.mem_cons.1 hin with heq | hint
    · obtain ⟨T, hT⟩ := hex
      have hstep : ∃ T1, alGet (activateSpectatorsStep acc e).1.teams tn = some T1 ∧
          pid ∈ T1.memberIds := by
        rw [← heq]
        unfold activateSpectatorsStep
        dsimp only
        rw [if_pos hsp, htm]
        dsimp only
        rw [show alGet acc.1.teams tn = some T from hT]
        dsimp only
        by_cases hmem : pid ∈ T.memberIds
        · rw [if_pos hmem]
          exact ⟨T, hT, hmem⟩
        · rw [if_neg hmem]
          refine ⟨{ T with memberIds := T.memberIds ++ [pid] }, ?_, by simp⟩
          rw [alGet_alUpdate_self, hT]
          rfl
      obtain ⟨T1, hT1, hm1⟩ := hstep
      exact actFold_memPersist t (activateSpectatorsStep acc e) tn pid T1 hT1 hm1
    · apply ih _ hint
      rcases actStep_teams acc e tn with hstep | ⟨T, _, hstep⟩
      · obtain ⟨T, hT⟩ := hex
        exact ⟨T, hstep ▸ hT⟩
      · exact ⟨_, hstep⟩

theorem endTurn_fst (r : Room) (now : Nat) (tn : String)
    (htn : r.teamOrder.get? r.activeTeamIndex = some tn) :
    (endTurn r now).1 =
      { (activateSpectators (endTurnPre r tn)).1 with
        turnPhase := some TurnPhase.waiting_for_describer, lastActivityAt := now } := by
  cases hcc : r.currentCard with
  | none =>
    simp only [endTurn, endTurnPre, clearTimer, hcc, htn]
  | some c =>
    simp only [endTurn, endTurnPre, clearTimer, hcc, htn]

-- ── C4 ───────────────────────────────────────────────────────

/-- C4: closing a turn marks the in-play card used without returning it to
the deck, clears the card and the countdown, advances the active team's
rotation cursor modulo its size, advances the active-team index by exactly
one modulo the team count (never the same team twice in a row with two or
more teams), increments the turn counter, activates every waiting spectator
into its team's rotation, and leaves the phase at waiting-for-describer. -/
theorem claim4_turn_close (r : Room) (now : Nat) (tn : String) (team : Team)
    (htn : r.teamOrder.get? r.activeTeamIndex = some tn)
    (hteam : alGet r.teams tn = some team)
    (hi : r.activeTeamIndex < r.teamOrder.length) :
    (∀ c, r.currentCard = some c → c.id ∈ (endTurn r now).1.usedCardIds) ∧
    (endTurn r now).1.deck = r.deck ∧
    (endTurn r now).1.currentCard = none ∧
    (endTurn r now).1.turnTimer = false ∧
    (team.memberIds ≠ [] →
       ∃ T2, alGet (endTurn r now).1.teams tn = some T2 ∧
         T2.describerIndex = (team.describerIndex + 1) % team.memberIds.length) ∧
    (endTurn r now).1.activeTeamIndex = (r.activeTeamIndex + 1) % r.teamOrder.length ∧
    (2 ≤ r.teamOrder.length → (endTurn r now).1.activeTeamIndex ≠ r.activeTeamIndex) ∧
    (endTurn r now).1.turnNumber = r.turnNumber + 1 ∧
    (∀ pid p, alGet (endTurn r now).1.players pid = some p → p.status = PStatus.active) ∧
    (∀ pid p tn2, alGet r.players pid = some p → p.status = PStatus.spectating →
       p.teamName = some tn2 → (∃ T0, alGet r.teams tn2 = some T0) →
       ∃ T2, alGet (endTurn r now).1.teams tn2 = some T2 ∧ pid ∈ T2.memberIds) ∧
    (endTurn r now).1.turnPhase = some TurnPhase.waiting_for_describer := by
  have hE := endTurn_fst r now tn htn
  have hconst := activateSpectators_const (endTurnPre r tn)
  have hplayersPre : (endTurnPre r tn).players = r.players := rfl
  have hteamsPre : (endTurnPre r tn).teams =
      alUpdate r.teams tn (fun t =>
        if 0 < t.memberIds.length then
          { t with describerIndex := (t.describerIndex + 1) % t.memberIds.length }
        else t) := rfl
  refine ⟨?_, ?_, ?_, ?_, ?_, ?_, ?_, ?_, ?_, ?_, ?_⟩
  · intro c hcc
    rw [hE]
    show c.id ∈ (activateSpectators (endTurnPre r tn)).1.usedCardIds
    rw [hconst.2.2.2.2.1]
    show c.id ∈ (match r.currentCard with
      | some c2 => setAdd r.usedCardIds c2.id
      | none => r.usedCardIds)
    rw [hcc]
    exact (mem_setAdd _ _ _).2 (Or.inr rfl)
  · rw [hE]
    show (activateSpectators (endTurnPre r tn)).1.deck = r.deck
    rw [hconst.2.2.1]
    rfl
  · rw [hE]
    show (activateSpectators (endTurnPre r tn)).1.currentCard = none
    rw [hconst.2.2.2.1]
    rfl
  · rw [hE]
    show (activateSpectators (endTurnPre r tn)).1.turnTimer = false
    rw [hconst.2.2.2.2.2.1]
    rfl
  · intro hne
    have hlen : 0 < team.memberIds.length := List.length_pos.2 hne
    have hpre : alGet (endTurnPre r tn).teams tn =
        some { team with describerIndex := (team.describerIndex + 1) % team.memberIds.length } := by
      rw [hteamsPre, alGet_alUpdate_self, hteam]
      simp [hlen]
    rcases actFold_teams (endTurnPre r tn).players (endTurnPre r tn, []) tn with
      ⟨h1, _⟩ | ⟨T, T2, h1, h2, _, hdi, _, _, _⟩
    · rw [hpre] at h1
      cases h1
    · rw [hpre] at h1
      injection h1 with h1
      refine ⟨T2, ?_, ?_⟩
      · rw [hE]
        exact h2
      · rw [hdi, ← h1]
  · rw [hE]
    show (activateSpectators (endTurnPre r tn)).1.activeTeamIndex =
      (r.activeTeamIndex + 1) % r.teamOrder.length
    rw [hconst.2.2.2.2.2.2.1]
    rfl
  · intro h2
    rw [hE]
    show (activateSpectators (endTurnPre r tn)).1.activeTeamIndex ≠ r.activeTeamIndex
    rw [hconst.2.2.2.2.2.2.1]
    show (r.activeTeamIndex + 1) % r.teamOrder.length ≠ r.activeTeamIndex
    rcases Nat.lt_or_ge (r.activeTeamIndex + 1) r.teamOrder.length with hlt | hge
    · rw [Nat.mod_eq_of_lt hlt]
      omega
    · have heq : r.activeTeamIndex + 1 = r.teamOrder.length := by omega
      rw [heq, Nat.mod_self]
      omega
  · rw [hE]
    show (activateSpectators (endTurnPre r tn)).1.turnNumber = r.turnNumber + 1
    rw [hconst.2.2.2.2.2.2.2.1]
    rfl
  · intro pid p hget
    rw [hE] at hget
    have hget2 : alGet (activateSpectators (endTurnPre r tn)).1.players pid = some p := hget
    refine actFold_active (endTurnPre r tn).players (endTurnPre r tn, []) ?_ pid p hget2
    intro pid2 p2 hget3
    cases hst : p2.status with
    | active => exact Or.inl rfl
    | spectating =>
      refine Or.inr ⟨p2, ?_, hst⟩
      exact alGet_mem _ _ _ hget3
  · intro pid p tn2 hget hsp htm hex
    have hin : (pid, p) ∈ (endTurnPre r tn).players := by
      rw [hplayersPre]
      exact alGet_mem _ _ _ hget
    have hex2 : ∃ T0, alGet (endTurnPre r tn).teams tn2 = some T0 := by
      obtain ⟨T0, hT0⟩ := hex
      rw [hteamsPre]
      by_cases htt : tn2 = tn
      · subst htt
        rw [alGet_alUpdate_self, hT0]
        exact ⟨_, rfl⟩
      · rw [alGet_alUpdate_ne _ _ _ _ htt]
        exact ⟨T0, hT0⟩
    obtain ⟨T2, hT2, hm2⟩ :=
      actFold_member (endTurnPre r tn).players (endTurnPre r tn, []) pid p tn2 hin hsp htm hex2
    refine ⟨T2, ?_, hm2⟩
    rw [hE]
    exact hT2
  · rw [hE]

theorem claim4_witness :
    (endTurn c7mid 0).1.activeTeamIndex = 1 ∧
    (endTurn c7mid 0).1.turnNumber = 1 ∧
    (endTurn c7mid 0).1.turnPhase = some TurnPhase.waiting_for_describer ∧
    (∃ T2, alGet (endTurn c7mid 0).1.teams "Equipo A" = some T2 ∧ "p8" ∈ T2.memberIds) := by
  obtain ⟨h1, h2, h3, h4, h5, h6, h7, h8, h9, h10, h11⟩ :=
    claim4_turn_close c7mid 0 "Equipo A"
      { name := "Equipo A", score := 0,
        memberIds := ["host", "p2", "p3", "p4", "p5"], describerIndex := 0 }
      (by rfl) (by rfl) (by decide)
  refine ⟨?_, h8, h11, ?_⟩
  · rw [h6]
    rfl
  · exact h10 "p8"
      { id := "p8", name := "B8", teamName := some "Equipo A", socketId := "s8",
        isHost := false, status := .spectating, joinOrder := 7 }
      "Equipo A" (by rfl) (by rfl) (by rfl)
      ⟨{ name := "Equipo A", score := 0,
         memberIds := ["host", "p2", "p3", "p4", "p5"], describerIndex := 0 }, by rfl⟩

-- ── C7 ───────────────────────────────────────────────────────

/-- C7 failing run: a five-member team accepts two mid-game joiners as
spectators (`addPlayer`'s capacity check counts only `memberIds`, not
spectators), and the next turn close activates both without re-checking the
cap, leaving seven member ids on Equipo A — above `MAX_PLAYERS_PER_TEAM` —
in a state reachable through the public operations. -/
theorem claim7_cap_overflow :
    Reachable c7room ∧
    (alGet c7room.teams "Equipo A").map (fun t => t.memberIds.length) = some 7 ∧
    MAX_PLAYERS_PER_TEAM < 7 := by
  refine ⟨?_, by rfl, by decide⟩
  have h0 := Reachable.init "ROOM07" "s0" "host" "Ana" 0
  have h1 := Reachable.add "s1" "p2" "B2" "Equipo A" 0 h0
  have h2 := Reachable.add "s2" "p3" "B3" "Equipo A" 0 h1
  have h3 := Reachable.add "s3" "p4" "B4" "Equipo A" 0 h2
  have h4 := Reachable.add "s4" "p5" "B5" "Equipo A" 0 h3
  have h5 := Reachable.add "s5" "p6" "B6" "Equipo B" 0 h4
  have h6 := Reachable.add "s6" "p7" "B7" "Equipo B" 0 h5
  have h7 : Reachable (startGame c7lobby sampleDeck 0).1 :=
    Reachable.start "host" sampleDeck 0 h6 (by rfl)
  have h8 := Reachable.add "s8" "p8" "B8" "Equipo A" 0 h7
  have h9 := Reachable.add "s9" "p9" "B9" "Equipo A" 0 h8
  have h10 : Reachable c7mid := Reachable.ready "host" 0 h9
  exact Reachable.turnEnd 0 h10 (by rfl) (Or.inl (by rfl))

-- ── C8 ───────────────────────────────────────────────────────

/-- C8 counterexample: a reachable state in which a team's membership is
empty but its `describerIndex` is not reset — after a turn close advanced
Equipo A's cursor to 1, removing both members leaves `memberIds = []` with
`describerIndex = 1`. -/
theorem claim8_counterexample :
    Reachable c8room ∧
    (alGet c8room.teams "Equipo A").map (fun t => t.memberIds) = some [] ∧
    (alGet c8room.teams "Equipo A").map (fun t => t.describerIndex) = some 1 := by
  refine ⟨?_, by rfl, by rfl⟩
  have h0 := Reachable.init "ROOM01" "s0" "host" "Ana" 0
  have h1 := Reachable.add "s1" "p2" "Blas" "Equipo A" 0 h0
  have h2 := Reachable.add "s2" "p3" "Caro" "Equipo B" 0 h1
  have h3 := Reachable.add "s3" "p4" "Dani" "Equipo B" 0 h2
  have h4 : Reachable (startGame lobby22 sampleDeck 0).1 :=
    Reachable.start "host" sampleDeck 0 h3 (by rfl)
  have h5 : Reachable midTurn22 := Reachable.ready "host" 0 h4
  have h6 := Reachable.turnEnd 0 h5 (by rfl) (Or.inl (by rfl))
  exact Reachable.remove "p2" 0 (Reachable.remove "host" 0 h6)

/-- C8 (amended): the current-describer lookup itself is safe — whenever the
active team's membership is nonempty it returns the id of a live member (the
stored index is reduced modulo the member count at lookup time, also after
arbitrary removals), and it returns null when the membership is empty; the
stored `describerIndex` is not reset when membership becomes empty. -/
theorem claim8_describer_lookup (r : Room) (team : Team)
    (h : getActiveTeam r = some team) :
    (team.memberIds ≠ [] →
       ∃ pid, getCurrentDescriberId r = some pid ∧ pid ∈ team.memberIds) ∧
    (team.memberIds = [] → getCurrentDescriberId r = none) := by
  constructor
  · intro hne
    unfold getCurrentDescriberId
    rw [h]
    dsimp only
    have hlen : team.memberIds.length ≠ 0 := by
      simpa using hne
    rw [if_neg hlen]
    have hlt : team.describerIndex % team.memberIds.length < team.memberIds.length :=
      Nat.mod_lt _ (Nat.pos_of_ne_zero hlen)
    exact ⟨_, List.get?_eq_get hlt, List.get_mem _ _ _⟩
  · intro he
    unfold getCurrentDescriberId
    rw [h]
    dsimp only
    rw [if_pos (by simp [he])]

theorem claim8_witness :
    ∃ pid, getCurrentDescriberId c8room = some pid ∧
      pid ∈ (["p3", "p4"] : List String) :=
  (claim8_describer_lookup c8room
    { name := "Equipo B", score := 0, memberIds := ["p3", "p4"], describerIndex := 0 }
    (by rfl)).1 (by decide)

end Taboo
